import Mathlib

/-!
Verification of the ASS subtitle parser and frame-interpolation engine
(`AssSubtitleParser.ts`).

The TypeScript source is shallowly embedded:
* JS strings are modelled as `List Char` (`JStr`);
* JS numbers are modelled as `JSNum`: either an exact rational value or the
  non-finite marker `nan` (IEEE `NaN`; the only non-finite value reachable at
  the points where we use `JSNum` division is `0/0 = NaN`);
* JS objects used as string-keyed records are modelled as association lists
  updated in place (`recordSet`), which preserves JS insertion-order
  semantics for `Object.entries`;
* the mutable per-dialogue frame cache is modelled by explicit state passing
  (`getFrameDataAtTime` returns the possibly-updated dialogue);
* the `for (t = 0; t <= duration; t += interval)` sampling loop is modelled
  by a fuel-indexed recursion (`genFramesLoop`); a separate lemma shows the
  canonical fuel suffices whenever the JS loop terminates.
-/

set_option maxRecDepth 4000

namespace AssSubtitleParser

/-- A JavaScript string, modelled as its list of characters. -/
abbrev JStr := List Char

/-- A JavaScript number: an exact rational, or the non-finite marker
(IEEE `NaN`).  At every division site reachable in the theorems below the
only non-finite result is `0/0 = NaN`. -/
inductive JSNum where
  | nan : JSNum
  | val (q : ℚ) : JSNum
deriving DecidableEq

/-- Addition on JS numbers (`NaN` propagates). -/
def JSNum.add : JSNum → JSNum → JSNum
  | JSNum.val a, JSNum.val b => JSNum.val (a + b)
  | _, _ => JSNum.nan

/-- Subtraction on JS numbers (`NaN` propagates). -/
def JSNum.sub : JSNum → JSNum → JSNum
  | JSNum.val a, JSNum.val b => JSNum.val (a - b)
  | _, _ => JSNum.nan

/-- Multiplication on JS numbers (`NaN` propagates).  JS also yields `NaN`
for `0 * Infinity`, but no infinite value is reachable at our call sites. -/
def JSNum.mul : JSNum → JSNum → JSNum
  | JSNum.val a, JSNum.val b => JSNum.val (a * b)
  | _, _ => JSNum.nan

/-- Division on JS numbers.  Division by zero is collapsed to the non-finite
marker: at the only division-by-zero site reachable below the numerator is
also zero, so the JS result is exactly `NaN`. -/
def JSNum.div : JSNum → JSNum → JSNum
  | JSNum.val a, JSNum.val b => if b = 0 then JSNum.nan else JSNum.val (a / b)
  | _, _ => JSNum.nan

/-- The whitespace characters skipped by `parseInt` / `parseFloat` and
removed by `String.prototype.trim` (the ASCII subset; exotic Unicode space
characters do not occur in the sources the parser consumes). -/
def isJsWs (c : Char) : Bool :=
  c = ' ' || c = '\t' || c = '\n' || c = '\r'

/-- Model of `String.prototype.trim`. -/
def jsTrim (s : JStr) : JStr :=
  ((s.dropWhile isJsWs).reverse.dropWhile isJsWs).reverse

/-- Model of `String.prototype.split(sep)` for a one-character separator:
`"".split(sep)` gives `[""]`, and empty fields are kept. -/
def splitOnChar (sep : Char) : JStr → List JStr
  | [] => [[]]
  | c :: rest =>
    match splitOnChar sep rest with
    | [] => [[c]]
    | h :: t => if c = sep then [] :: h :: t else (c :: h) :: t

/-- Model of `String.prototype.startsWith`. -/
def startsWithL : JStr → JStr → Bool
  | [], _ => true
  | _ :: _, [] => false
  | p :: ps, c :: cs => p = c && startsWithL ps cs

/-- Model of `String.prototype.endsWith`. -/
def endsWithL (p s : JStr) : Bool :=
  startsWithL p.reverse s.reverse

/-- Split a list at the first occurrence of `c`: returns the part strictly
before it and the part strictly after it. -/
def splitFirst (c : Char) : JStr → Option (JStr × JStr)
  | [] => none
  | x :: rest =>
    if x = c then some ([], rest)
    else (splitFirst c rest).map (fun p => (x :: p.1, p.2))

/-- Model of `String.prototype.padStart(n, '0')`. -/
def padStartZeros (n : ℕ) (s : JStr) : JStr :=
  List.replicate (n - s.length) '0' ++ s

/-- Model of a JS object used as a string-keyed record: assignment replaces
the value of an existing key in place (preserving its insertion position) or
appends a new key at the end, which is exactly the enumeration order of
`Object.entries`. -/
def recordSet {α : Type} (k : JStr) (v : α) : List (JStr × α) → List (JStr × α)
  | [] => [(k, v)]
  | (k', v') :: rest =>
    if k' = k then (k', v) :: rest else (k', v') :: recordSet k v rest

/-- Look up a key in a record modelled as an association list. -/
def recordGet {α : Type} (k : JStr) : List (JStr × α) → Option α
  | [] => none
  | (k', v') :: rest => if k' = k then some v' else recordGet k rest

/-- The numeric value of one hexadecimal digit (`0-9`, `a-f`, `A-F`). -/
def hexDigitVal (c : Char) : Option ℕ :=
  if '0' ≤ c ∧ c ≤ '9' then some (c.toNat - '0'.toNat)
  else if 'a' ≤ c ∧ c ≤ 'f' then some (c.toNat - 'a'.toNat + 10)
  else if 'A' ≤ c ∧ c ≤ 'F' then some (c.toNat - 'A'.toNat + 10)
  else none

/-- The numeric value of one decimal digit. -/
def decDigitVal (c : Char) : Option ℕ :=
  if '0' ≤ c ∧ c ≤ '9' then some (c.toNat - '0'.toNat) else none

/-- Accumulate the value of a run of hexadecimal digits. -/
def hexDigitsVal (l : JStr) : ℕ :=
  l.foldl (fun acc c => acc * 16 + (hexDigitVal c).getD 0) 0

/-- Accumulate the value of a run of decimal digits. -/
def decDigitsVal (l : JStr) : ℕ :=
  l.foldl (fun acc c => acc * 10 + (decDigitVal c).getD 0) 0

/-- Strip an optional leading sign, returning whether the value is negated. -/
def stripSign (s : JStr) : Bool × JStr :=
  match s with
  | c :: rest => if c = '-' then (true, rest) else if c = '+' then (false, rest) else (false, s)
  | [] => (false, s)

/-- Model of `parseInt(s, 16)`: skip whitespace, optional sign, optional
`0x`/`0X`, then the longest run of hex digits; `NaN` if that run is empty. -/
def jsParseIntHex (s : JStr) : JSNum :=
  let s1 := s.dropWhile isJsWs
  let p := stripSign s1
  let s3 :=
    if p.2.take 2 = ['0', 'x'] ∨ p.2.take 2 = ['0', 'X'] then p.2.drop 2 else p.2
  let digits := s3.takeWhile (fun c => (hexDigitVal c).isSome)
  if digits = [] then JSNum.nan
  else JSNum.val (if p.1 then -(hexDigitsVal digits : ℚ) else (hexDigitsVal digits : ℚ))

/-- Model of `parseInt(s)` with no radix argument: skip whitespace, optional
sign, then hex if the digits start with `0x`/`0X` and decimal otherwise;
`NaN` if the digit run is empty. -/
def jsParseIntAuto (s : JStr) : JSNum :=
  let s1 := s.dropWhile isJsWs
  let p := stripSign s1
  match p.2 with
  | '0' :: 'x' :: rest =>
    let digits := rest.takeWhile (fun c => (hexDigitVal c).isSome)
    if digits = [] then JSNum.nan
    else JSNum.val (if p.1 then -(hexDigitsVal digits : ℚ) else (hexDigitsVal digits : ℚ))
  | '0' :: 'X' :: rest =>
    let digits := rest.takeWhile (fun c => (hexDigitVal c).isSome)
    if digits = [] then JSNum.nan
    else JSNum.val (if p.1 then -(hexDigitsVal digits : ℚ) else (hexDigitsVal digits : ℚ))
  | other =>
    let digits := other.takeWhile (fun c => (decDigitVal c).isSome)
    if digits = [] then JSNum.nan
    else JSNum.val (if p.1 then -(decDigitsVal digits : ℚ) else (decDigitsVal digits : ℚ))

/-- Model of `parseFloat(s)`: skip whitespace, optional sign, then the
longest decimal literal `digits [. digits] [e[sign]digits]` or
`. digits [e...]`; `NaN` when no digits are found.  The `Infinity` literal
is not modelled (it never occurs in subtitle scripts). -/
def jsParseFloat (s : JStr) : JSNum :=
  let s1 := s.dropWhile isJsWs
  let p := stripSign s1
  let ip := p.2.takeWhile (fun c => (decDigitVal c).isSome)
  let s3 := p.2.drop ip.length
  let fp :=
    match s3 with
    | '.' :: rest => rest.takeWhile (fun c => (decDigitVal c).isSome)
    | _ => []
  let s4 :=
    match s3 with
    | '.' :: rest => rest.drop fp.length
    | other => other
  if ip = [] ∧ fp = [] then JSNum.nan
  else
    let mant : ℚ := (decDigitsVal ip : ℚ) + (decDigitsVal fp : ℚ) / (10 : ℚ) ^ fp.length
    let escale : ℚ :=
      match s4 with
      | 'e' :: rest => expScale rest
      | 'E' :: rest => expScale rest
      | _ => 1
    JSNum.val ((if p.1 then -mant else mant) * escale)
where
  /-- Scale factor contributed by an exponent suffix; an exponent with no
  digits contributes nothing (`parseFloat("1e") = 1`). -/
  expScale (rest : JStr) : ℚ :=
    let q := stripSign rest
    let ed := q.2.takeWhile (fun c => (decDigitVal c).isSome)
    if ed = [] then 1
    else if q.1 then ((10 : ℚ) ^ decDigitsVal ed)⁻¹ else (10 : ℚ) ^ decDigitsVal ed

/-- Model of the JS idiom `x || dflt` applied to a parsed number: `NaN` and
`0` are both falsy, so both fall back to the default. -/
def jsOrD (x : JSNum) (dflt : ℚ) : ℚ :=
  match x with
  | JSNum.nan => dflt
  | JSNum.val q => if q = 0 then dflt else q

/-- Decimal digits of a natural number. -/
def natToChars (n : ℕ) : JStr :=
  if h : n < 10 then [Char.ofNat (48 + n)]
  else natToChars (n / 10) ++ [Char.ofNat (48 + n % 10)]
decreasing_by exact Nat.div_lt_self (by omega) (by omega)

/-- Decimal rendering of an integer. -/
def intChars (z : ℤ) : JStr :=
  if z < 0 then '-' :: natToChars z.natAbs else natToChars z.toNat

/-- Rendering of an integer-valued JS number by string interpolation
(`NaN` renders as `"NaN"`).  Every call site below only produces integers
(`parseInt` results and `Math.round` results), so only the integer part of
the rational is rendered. -/
def jsIntChars (x : JSNum) : JStr :=
  match x with
  | JSNum.nan => "NaN".toList
  | JSNum.val q => intChars q.num

/-- Left-pad a digit run to width 3 with zeros. -/
def pad3 (n : ℕ) : JStr :=
  let d := natToChars n
  List.replicate (3 - d.length) '0' ++ d

/-- Model of `Number.prototype.toFixed(3)`: round to the nearest multiple of
`1/1000`, larger value on ties (`NaN` renders as `"NaN"`).  The alpha values
this is applied to are of the form `k / 255` with `0 ≤ k ≤ 255` (and convex
combinations thereof), which are never ties and are reproduced exactly. -/
def jsToFixed3 (x : JSNum) : JStr :=
  match x with
  | JSNum.nan => "NaN".toList
  | JSNum.val q =>
    let m : ℤ := ⌊q * 1000 + 1 / 2⌋
    if m < 0 then '-' :: (natToChars (m.natAbs / 1000) ++ '.' :: pad3 (m.natAbs % 1000))
    else natToChars (m.toNat / 1000) ++ '.' :: pad3 (m.toNat % 1000)

/-- Model of `Math.round` (round half toward positive infinity);
`NaN` stays `NaN`. -/
def jsRound (x : JSNum) : JSNum :=
  match x with
  | JSNum.nan => JSNum.nan
  | JSNum.val q => JSNum.val (⌊q + 1 / 2⌋ : ℤ)

/-- Model of `Math.abs` on finite values. -/
def jsAbs (q : ℚ) : ℚ := |q|

/-! ### Data model (the exported interfaces of `AssSubtitleParser.ts`) -/

/-- Interface `OverrideTag`: a tag type, its raw value string, and the
position recorded for it by `parseTextSegments`. -/
structure OverrideTag where
  type : JStr
  value : JStr
  startIndex : ℚ
deriving DecidableEq

/-- Interface `Transition`: a `\t(...)` time window (ms, relative to the
dialogue start) and the record of target property values. -/
structure Transition where
  startOffset : ℚ
  endOffset : ℚ
  targetChanges : List (JStr × JStr)
deriving DecidableEq

/-- Interface `TextSegment`: a plain-text run with the override tags
accumulated before it and its recorded start and end indices. -/
structure TextSegment where
  text : JStr
  overrides : List OverrideTag
  startIndex : ℚ
  endIndex : ℚ
deriving DecidableEq

/-- Interface `FrameData`: one time-stamped sample of resolved visual
state.  The optional fields of the TS interface are always assigned by
`generateFrameData` (the initial state sets every one of them), so they are
modelled as always-present values; `NaN` contamination is represented
inside `JSNum`. -/
structure FrameData where
  timestamp : ℚ
  primaryColor : JStr
  secondaryColor : JStr
  outlineColor : JStr
  backColor : JStr
  alpha : JSNum
  fontSize : JSNum
  rotation : JSNum
deriving DecidableEq

/-- Interface `AssStyle` with every field present, as declared in the TS
interface.  (`parseStyle` can in fact produce objects missing some fields;
those are modelled separately by `StyleRec` below.) -/
structure AssStyle where
  name : JStr
  fontname : JStr
  fontsize : ℚ
  primaryColour : JStr
  secondaryColour : JStr
  outlineColour : JStr
  backColour : JStr
  bold : Bool
  italic : Bool
  underline : Bool
  strikeOut : Bool
  scaleX : ℚ
  scaleY : ℚ
  spacing : ℚ
  angle : ℚ
  borderStyle : ℚ
  outline : ℚ
  shadow : ℚ
  alignment : ℚ
  marginL : ℚ
  marginR : ℚ
  marginV : ℚ
  encoding : ℚ
deriving DecidableEq

/-- The runtime shape of a style object built by `parseStyle`: it is a
`Partial<AssStyle>` cast to `AssStyle`, so every field may be absent. -/
structure StyleRec where
  name : Option JStr := none
  fontname : Option JStr := none
  fontsize : Option ℚ := none
  primaryColour : Option JStr := none
  secondaryColour : Option JStr := none
  outlineColour : Option JStr := none
  backColour : Option JStr := none
  bold : Option Bool := none
  italic : Option Bool := none
  underline : Option Bool := none
  strikeOut : Option Bool := none
  scaleX : Option ℚ := none
  scaleY : Option ℚ := none
  spacing : Option ℚ := none
  angle : Option ℚ := none
  borderStyle : Option ℚ := none
  outline : Option ℚ := none
  shadow : Option ℚ := none
  alignment : Option ℚ := none
  marginL : Option ℚ := none
  marginR : Option ℚ := none
  marginV : Option ℚ := none
  encoding : Option ℚ := none
deriving DecidableEq

/-- Interface `AssDialogue`.  `start`, `end` and `text` are always present
on an accepted dialogue (the acceptance check in `parseDialogue`
guarantees it); the remaining fields may be absent when the `Format:`
header did not name them, so they are modelled as options.  The source
field `end` is renamed `end_` (`end` is reserved in Lean). -/
structure AssDialogue where
  layer : Option ℚ := none
  start : ℚ
  end_ : ℚ
  style : Option JStr := none
  name : Option JStr := none
  marginL : Option ℚ := none
  marginR : Option ℚ := none
  marginV : Option ℚ := none
  effect : Option JStr := none
  text : JStr
  originalText : Option JStr := none
  segments : Option (List TextSegment) := none
  transitions : Option (List Transition) := none
  frames : Option (List FrameData) := none
deriving DecidableEq

/-- The dialogue object under construction inside `parseDialogue`
(a `Partial<AssDialogue>`). -/
structure PartialDialogue where
  layer : Option ℚ := none
  start : Option ℚ := none
  end_ : Option ℚ := none
  style : Option JStr := none
  name : Option JStr := none
  marginL : Option ℚ := none
  marginR : Option ℚ := none
  marginV : Option ℚ := none
  effect : Option JStr := none
  text : Option JStr := none
  originalText : Option JStr := none
  segments : Option (List TextSegment) := none
  transitions : Option (List Transition) := none
deriving DecidableEq

/-- Interface `AssSubtitle`: the aggregate returned by `parse`. -/
structure AssSubtitle where
  scriptInfo : List (JStr × JStr)
  styles : List (JStr × StyleRec)
  dialogues : List AssDialogue
deriving DecidableEq

/-! ### Time and color codec -/

/-- Model of `parseTime`: `H:MM:SS.CS` to seconds; any malformed field
falls back to `0`, and a shape without exactly three `:`-separated fields
yields `0`. -/
def parseTime (timeStr : JStr) : ℚ :=
  let parts := splitOnChar ':' timeStr
  if parts.length ≠ 3 then 0
  else
    let hours := jsOrD (jsParseIntAuto (parts.getD 0 [])) 0
    let minutes := jsOrD (jsParseIntAuto (parts.getD 1 [])) 0
    let secondsAndCentiseconds := jsOrD (jsParseFloat (parts.getD 2 [])) 0
    hours * 3600 + minutes * 60 + secondsAndCentiseconds

/-- Render of the `rgba(${rr}, ${gg}, ${bb}, ${alpha.toFixed(3)})` template
literal in `parseColor` / `interpolateColor` (note the spaces). -/
def rgbaChars (r g b : JSNum) (alphaStr : JStr) : JStr :=
  "rgba(".toList ++ jsIntChars r ++ ", ".toList ++ jsIntChars g ++
    ", ".toList ++ jsIntChars b ++ ", ".toList ++ alphaStr ++ [')']

/-- The fallback string literal `'rgba(255,255,255,1)'` of `parseColor`. -/
def whiteChars : JStr := "rgba(255,255,255,1)".toList

/-- Model of `parseColor`: on a string starting with `&H`, drop the prefix,
left-pad with zeros to eight characters, read the four hex pairs in
`AABBGGRR` order with `parseInt(-, 16)`, invert the alpha and render an
`rgba(...)` string; any string not starting with `&H` yields the opaque
white literal. -/
def parseColor (colorStr : JStr) : JStr :=
  if colorStr = [] ∨ startsWithL "&H".toList colorStr = false then whiteChars
  else
    let hex := padStartZeros 8 (colorStr.drop 2)
    let aa := jsParseIntHex ((hex.drop 0).take 2)
    let bb := jsParseIntHex ((hex.drop 2).take 2)
    let gg := jsParseIntHex ((hex.drop 4).take 2)
    let rr := jsParseIntHex ((hex.drop 6).take 2)
    let alpha := (JSNum.val 255 |>.sub aa) |>.div (JSNum.val 255)
    rgbaChars rr gg bb (jsToFixed3 alpha)

/-! ### Override-tag scanning

The source matches a fixed catalogue of regular expressions over the inside
of a `{...}` block.  Each pattern is hand-rolled here as a matcher that,
applied at a position, either fails or returns the captured payload together
with the unconsumed remainder of the input.  `scanPat` then reproduces the
`regex.exec` loop: repeatedly find the leftmost match at or after the
current position, moving one character forward when no match starts here.
Every matcher consumes at least one character on success (all patterns start
with a literal backslash), so a fuel equal to the input length is exact. -/

/-- Consume an exact literal, returning the rest. -/
def matchLit : JStr → JStr → Option JStr
  | [], s => some s
  | _ :: _, [] => none
  | p :: ps, c :: cs => if p = c then matchLit ps cs else none

/-- Try a list of literal alternatives in order (regex `(?:a|b)`). -/
def matchAlts (alts : List JStr) (s : JStr) : Option JStr :=
  match alts with
  | [] => none
  | a :: rest =>
    match matchLit a s with
    | some r => some r
    | none => matchAlts rest s

/-- Greedily match between `lo` and `hi` hex digits followed by a literal
`&` (regex `[0-9A-Fa-f]{lo,hi}&` with backtracking), longest first;
captures the digits. -/
def matchHexAmp (lo hi : ℕ) (s : JStr) : Option (JStr × JStr) :=
  let digits := (s.takeWhile (fun c => (hexDigitVal c).isSome)).take hi
  tryLens digits (hi + 1 - lo)
where
  tryLens (digits : JStr) : ℕ → Option (JStr × JStr)
    | 0 => none
    | n + 1 =>
      let k := digits.length
      if k < lo then none
      else
        match matchLit (digits ++ ['&']) s with
        | some r => some (digits, r)
        | none => tryLens (digits.take (k - 1)) n

/-- Match regex `\d+(?:\.\d+)?`: one or more digits, then optionally a dot
followed by one or more digits; captures everything consumed. -/
def matchDecimal (s : JStr) : Option (JStr × JStr) :=
  let ip := s.takeWhile (fun c => (decDigitVal c).isSome)
  if ip = [] then none
  else
    let s2 := s.drop ip.length
    match s2 with
    | '.' :: rest =>
      let fp := rest.takeWhile (fun c => (decDigitVal c).isSome)
      if fp = [] then some (ip, s2)
      else some (ip ++ '.' :: fp, rest.drop fp.length)
    | _ => some (ip, s2)

/-- Match regex `-?\d+(?:\.\d+)?` (used by `\frz`). -/
def matchSignedDecimal (s : JStr) : Option (JStr × JStr) :=
  match s with
  | '-' :: rest => (matchDecimal rest).map (fun p => ('-' :: p.1, p.2))
  | _ => matchDecimal s

/-- One pattern of the override-tag catalogue: its type tag and its matcher
(at-this-position semantics). -/
structure TagPattern where
  type : JStr
  matcher : JStr → Option (JStr × JStr)

/-- Matcher for the color patterns `\c`/`\1c`, `\2c`, `\3c`, `\4c`:
alternative keywords, then `&H`, then 6 to 8 hex digits, then `&`. -/
def colorMatcher (alts : List JStr) (s : JStr) : Option (JStr × JStr) :=
  match matchAlts alts s with
  | none => none
  | some r =>
    match matchLit "&H".toList r with
    | none => none
    | some r2 => matchHexAmp 6 8 r2

/-- Matcher for the alpha patterns `\alpha`, `\1a`..`\4a`: keyword, `&H`,
exactly two hex digits, `&`. -/
def alphaMatcher (kw : JStr) (s : JStr) : Option (JStr × JStr) :=
  match matchLit kw s with
  | none => none
  | some r =>
    match matchLit "&H".toList r with
    | none => none
    | some r2 => matchHexAmp 2 2 r2

/-- Matcher for a keyword followed by an unsigned decimal payload
(`\fs`, `\fscx`, `\fscy`). -/
def numMatcher (kw : JStr) (s : JStr) : Option (JStr × JStr) :=
  match matchLit kw s with
  | none => none
  | some r => matchDecimal r

/-- Matcher for a keyword followed by a signed decimal payload (`\frz`). -/
def signedNumMatcher (kw : JStr) (s : JStr) : Option (JStr × JStr) :=
  match matchLit kw s with
  | none => none
  | some r => matchSignedDecimal r

/-- The pattern catalogue of `parseOverrideTags`, in source order. -/
def tagPatterns : List TagPattern :=
  [ ⟨"1c".toList, colorMatcher ["\\1c".toList, "\\c".toList]⟩,
    ⟨"2c".toList, colorMatcher ["\\2c".toList]⟩,
    ⟨"3c".toList, colorMatcher ["\\3c".toList]⟩,
    ⟨"4c".toList, colorMatcher ["\\4c".toList]⟩,
    ⟨"alpha".toList, alphaMatcher "\\alpha".toList⟩,
    ⟨"1a".toList, alphaMatcher "\\1a".toList⟩,
    ⟨"2a".toList, alphaMatcher "\\2a".toList⟩,
    ⟨"3a".toList, alphaMatcher "\\3a".toList⟩,
    ⟨"4a".toList, alphaMatcher "\\4a".toList⟩,
    ⟨"fs".toList, numMatcher "\\fs".toList⟩,
    ⟨"frz".toList, signedNumMatcher "\\frz".toList⟩,
    ⟨"fscx".toList, numMatcher "\\fscx".toList⟩,
    ⟨"fscy".toList, numMatcher "\\fscy".toList⟩ ]

/-- Fuelled `regex.exec` loop for one pattern: collect all non-overlapping
matches left to right. -/
def scanPatF (m : JStr → Option (JStr × JStr)) : ℕ → JStr → List JStr
  | 0, _ => []
  | _, [] => []
  | f + 1, c :: rest =>
    match m (c :: rest) with
    | some (cap, after) => cap :: scanPatF m f after
    | none => scanPatF m f rest

/-- All captures of one pattern over an input (fuel = input length, exact
because every successful match consumes at least one character). -/
def scanPat (m : JStr → Option (JStr × JStr)) (s : JStr) : List JStr :=
  scanPatF m s.length s

/-- Model of `parseOverrideTags`: strip the braces of the block, then run
every pattern of the catalogue over the content, in catalogue order,
accumulating one `OverrideTag` per match (`startIndex` is 0 here and is
overwritten by the caller). -/
def parseOverrideTags (tagBlock : JStr) : List OverrideTag :=
  let content := (tagBlock.drop 1).dropLast
  tagPatterns.foldl
    (fun acc pat =>
      acc ++ (scanPat pat.matcher content).map (fun cap => ⟨pat.type, cap, 0⟩))
    []

/-- Model of `stripFormattingTags`: remove every `{...}` block (a `{`
without a matching `}` is kept, as the regex cannot match it), then trim. -/
def stripBlocksF : ℕ → JStr → JStr
  | 0, s => s
  | _, [] => []
  | f + 1, c :: rest =>
    if c = '{' then
      match splitFirst '}' rest with
      | some p => stripBlocksF f p.2
      | none => c :: rest
    else c :: stripBlocksF f rest

/-- Model of `stripFormattingTags` (see `stripBlocksF`). -/
def stripFormattingTags (text : JStr) : JStr :=
  jsTrim (stripBlocksF text.length text)

/-- One step of the `parseTextSegments` scan, with fuel.  This reproduces
the regex `({[^}]*})|([^{}]+)` driven by `exec`:

* a `{` with a later `}` is an override block: its tags are parsed and
  appended to the running override list with the *current* index (the
  index does not advance over blocks);
* a `{` with no later `}` and a bare `}` cannot start a match and are
  skipped;
* otherwise a maximal run of non-brace characters forms a `TextSegment`
  carrying a snapshot of the accumulated overrides, and the index advances
  by the run length. -/
def segLoopF : ℕ → JStr → ℚ → List OverrideTag → List TextSegment
  | 0, _, _, _ => []
  | _, [], _, _ => []
  | f + 1, c :: rest, idx, cur =>
    if c = '{' then
      match splitFirst '}' rest with
      | some p =>
        let block := '{' :: p.1 ++ ['}']
        let tags := (parseOverrideTags block).map (fun o => { o with startIndex := idx })
        segLoopF f p.2 idx (cur ++ tags)
      | none => segLoopF f rest idx cur
    else if c = '}' then segLoopF f rest idx cur
    else
      let run := (c :: rest).takeWhile (fun ch => ch ≠ '{' ∧ ch ≠ '}')
      ⟨run, cur, idx, idx + run.length⟩ ::
        segLoopF f ((c :: rest).drop run.length) (idx + run.length) cur

/-- Model of `parseTextSegments` (fuel = input length; every step consumes
at least one character). -/
def parseTextSegments (text : JStr) : List TextSegment :=
  segLoopF text.length text 0 []

/-- Build one `Transition` from the inside of a `\t(...)` group, if it has
at least three comma-separated arguments. -/
def mkTransition (inside : JStr) : Option Transition :=
  let params := (splitOnChar ',' inside).map jsTrim
  if params.length ≥ 3 then
    let startOffset := jsOrD (jsParseFloat (params.getD 0 [])) 0
    let endOffset := jsOrD (jsParseFloat (params.getD 1 [])) 0
    let targetOverrides := joinComma (params.drop 2)
    let parsed := parseOverrideTags ('{' :: targetOverrides ++ ['}'])
    let targetChanges := parsed.foldl (fun acc o => recordSet o.type o.value acc) []
    some ⟨startOffset, endOffset, targetChanges⟩
  else none
where
  /-- Model of `Array.prototype.join(',')`. -/
  joinComma : List JStr → JStr
    | [] => []
    | [x] => x
    | x :: y :: rest => x ++ ',' :: joinComma (y :: rest)

/-- Fuelled scan for `\t(...)` groups (regex `\\t\(([^)]+)\)`): find the
literal `\t(`, then a non-empty run up to the next `)`; an empty group is
not a match and scanning resumes one character later. -/
def transLoopF : ℕ → JStr → List Transition
  | 0, _ => []
  | _, [] => []
  | f + 1, c :: rest =>
    match c, rest with
    | '\\', 't' :: '(' :: rest2 =>
      (match splitFirst ')' rest2 with
       | some p =>
         if p.1 ≠ [] then
           match mkTransition p.1 with
           | some tr => tr :: transLoopF f p.2
           | none => transLoopF f p.2
         else transLoopF f ('t' :: '(' :: rest2)
       | none => transLoopF f ('t' :: '(' :: rest2))
    | _, _ => transLoopF f rest

/-- Model of `parseTransitions` (fuel = input length). -/
def parseTransitions (text : JStr) : List Transition :=
  transLoopF text.length text

/-! ### Section scanner, style table builder and dialogue parser -/

/-- Model of `parseScriptInfo`: split at the first `:`; a line without one
is ignored. -/
def parseScriptInfo (line : JStr) (info : List (JStr × JStr)) : List (JStr × JStr) :=
  match splitFirst ':' line with
  | none => info
  | some p => recordSet (jsTrim p.1) (jsTrim p.2) info

/-- Assign one named style field from its trimmed value
(the `switch (field)` of `parseStyle`); unknown field names are ignored. -/
def applyStyleField (field value : JStr) (st : StyleRec) : StyleRec :=
  if field = "Name".toList then { st with name := some value }
  else if field = "Fontname".toList then { st with fontname := some value }
  else if field = "Fontsize".toList then
    { st with fontsize := some (jsOrD (jsParseIntAuto value) 20) }
  else if field = "PrimaryColour".toList then
    { st with primaryColour := some (parseColor value) }
  else if field = "SecondaryColour".toList then
    { st with secondaryColour := some (parseColor value) }
  else if field = "OutlineColour".toList then
    { st with outlineColour := some (parseColor value) }
  else if field = "BackColour".toList then
    { st with backColour := some (parseColor value) }
  else if field = "Bold".toList then
    { st with bold := some (value = "1".toList ∨ value = "-1".toList : Bool) }
  else if field = "Italic".toList then
    { st with italic := some (value = "1".toList ∨ value = "-1".toList : Bool) }
  else if field = "Underline".toList then
    { st with underline := some (value = "1".toList : Bool) }
  else if field = "StrikeOut".toList then
    { st with strikeOut := some (value = "1".toList : Bool) }
  else if field = "ScaleX".toList then
    { st with scaleX := some (jsOrD (jsParseFloat value) 100) }
  else if field = "ScaleY".toList then
    { st with scaleY := some (jsOrD (jsParseFloat value) 100) }
  else if field = "Spacing".toList then
    { st with spacing := some (jsOrD (jsParseFloat value) 0) }
  else if field = "Angle".toList then
    { st with angle := some (jsOrD (jsParseFloat value) 0) }
  else if field = "BorderStyle".toList then
    { st with borderStyle := some (jsOrD (jsParseIntAuto value) 1) }
  else if field = "Outline".toList then
    { st with outline := some (jsOrD (jsParseFloat value) 0) }
  else if field = "Shadow".toList then
    { st with shadow := some (jsOrD (jsParseFloat value) 0) }
  else if field = "Alignment".toList then
    { st with alignment := some (jsOrD (jsParseIntAuto value) 2) }
  else if field = "MarginL".toList then
    { st with marginL := some (jsOrD (jsParseIntAuto value) 0) }
  else if field = "MarginR".toList then
    { st with marginR := some (jsOrD (jsParseIntAuto value) 0) }
  else if field = "MarginV".toList then
    { st with marginV := some (jsOrD (jsParseIntAuto value) 0) }
  else if field = "Encoding".toList then
    { st with encoding := some (jsOrD (jsParseIntAuto value) 1) }
  else st

/-- The positional field-assignment loop of `parseStyle`. -/
def buildStyleFields : List JStr → List JStr → StyleRec → StyleRec
  | [], _, st => st
  | field :: fmtRest, values, st =>
    buildStyleFields fmtRest (values.drop 1)
      (applyStyleField field (jsTrim (values.getD 0 [])) st)

/-- Model of `parseStyle`: split the remainder of a `Style:` line on commas;
a field count different from the format length discards the line; a built
record with a missing or empty `Name` is discarded, otherwise it is keyed by
its name. -/
def parseStyle (line : JStr) (format : List JStr) : Option (JStr × StyleRec) :=
  let values := splitOnChar ',' (line.drop 6)
  if values.length ≠ format.length then none
  else
    let st := buildStyleFields format values {}
    match st.name with
    | some n => if n ≠ [] then some (n, st) else none
    | none => none

/-- Assign one named dialogue field from its trimmed value
(the `switch (field)` of `parseDialogue`); unknown field names are
ignored. -/
def applyDialogueField (field value : JStr) (pd : PartialDialogue) : PartialDialogue :=
  if field = "Layer".toList then { pd with layer := some (jsOrD (jsParseIntAuto value) 0) }
  else if field = "Start".toList then { pd with start := some (parseTime value) }
  else if field = "End".toList then { pd with end_ := some (parseTime value) }
  else if field = "Style".toList then { pd with style := some value }
  else if field = "Name".toList then { pd with name := some value }
  else if field = "MarginL".toList then
    { pd with marginL := some (jsOrD (jsParseIntAuto value) 0) }
  else if field = "MarginR".toList then
    { pd with marginR := some (jsOrD (jsParseIntAuto value) 0) }
  else if field = "MarginV".toList then
    { pd with marginV := some (jsOrD (jsParseIntAuto value) 0) }
  else if field = "Effect".toList then { pd with effect := some value }
  else if field = "Text".toList then
    { pd with
      originalText := some value,
      text := some (stripFormattingTags value),
      segments := some (parseTextSegments value),
      transitions := some (parseTransitions value) }
  else pd

/-- Model of `Array.prototype.join(',')` on the comma-split values. -/
def joinWithComma : List JStr → JStr
  | [] => []
  | [x] => x
  | x :: y :: rest => x ++ ',' :: joinWithComma (y :: rest)

/-- The positional field-assignment loop of `parseDialogue`: field `i` takes
`values[i]` trimmed, except that a `Text` field that is not the last value
takes the re-joined tail (free text may contain commas). -/
def buildDialogueFields (i : ℕ) : List JStr → List JStr → PartialDialogue → PartialDialogue
  | [], _, pd => pd
  | field :: fmtRest, values, pd =>
    let v0 := jsTrim (values.getD i [])
    let value :=
      if field = "Text".toList ∧ i + 1 < values.length then
        jsTrim (joinWithComma (values.drop i))
      else v0
    buildDialogueFields (i + 1) fmtRest values (applyDialogueField field value pd)

/-- The acceptance check of `parseDialogue`: a dialogue is kept only when
`start` and `end` are present and `text` is a non-empty string (JS
truthiness of `dialogue.text`). -/
def finishDialogue (pd : PartialDialogue) : Option AssDialogue :=
  match pd.start, pd.end_, pd.text with
  | some s, some e, some tx =>
    if tx ≠ [] then
      some
        { layer := pd.layer, start := s, end_ := e, style := pd.style,
          name := pd.name, marginL := pd.marginL, marginR := pd.marginR,
          marginV := pd.marginV, effect := pd.effect, text := tx,
          originalText := pd.originalText, segments := pd.segments,
          transitions := pd.transitions, frames := none }
    else none
  | _, _, _ => none

/-- Model of `parseDialogue`: split the remainder of a `Dialogue:` line on
commas; fewer values than format fields discards the line; otherwise build
the field record and apply the acceptance check. -/
def parseDialogue (line : JStr) (format : List JStr) : Option AssDialogue :=
  if (splitOnChar ',' (line.drop 9)).length < format.length then none
  else finishDialogue (buildDialogueFields 0 format (splitOnChar ',' (line.drop 9)) {})

/-- The scanner state of `parse`: current section, the two captured
`Format:` field lists, and the result under construction. -/
structure ParseState where
  currentSection : JStr
  styleFormat : List JStr
  dialogueFormat : List JStr
  result : AssSubtitle
deriving DecidableEq

/-- Process one trimmed line of input, exactly as the `for` loop of
`parse`: a `[Name]` line switches the section; blank lines and `;` comments
are skipped; other lines dispatch on the current section, where
unrecognized sections ignore the line. -/
def processLine (st : ParseState) (line : JStr) : ParseState :=
  if startsWithL ['['] line ∧ endsWithL [']'] line then
    { st with currentSection := (line.drop 1).dropLast }
  else if line = [] ∨ startsWithL [';'] line then st
  else if st.currentSection = "Script Info".toList then
    { st with result.scriptInfo := parseScriptInfo line st.result.scriptInfo }
  else if st.currentSection = "V4+ Styles".toList then
    if startsWithL "Format:".toList line then
      { st with styleFormat := (splitOnChar ',' (line.drop 7)).map jsTrim }
    else if startsWithL "Style:".toList line then
      match parseStyle line st.styleFormat with
      | some p => { st with result.styles := recordSet p.1 p.2 st.result.styles }
      | none => st
    else st
  else if st.currentSection = "Events".toList then
    if startsWithL "Format:".toList line then
      { st with dialogueFormat := (splitOnChar ',' (line.drop 7)).map jsTrim }
    else if startsWithL "Dialogue:".toList line then
      match parseDialogue line st.dialogueFormat with
      | some d => { st with result.dialogues := st.result.dialogues ++ [d] }
      | none => st
    else st
  else st

/-- Model of `parse`: split the content on newlines, trim every line, then
run the stateful single-pass scan. -/
def parse (content : JStr) : AssSubtitle :=
  let lines := (splitOnChar '\n' content).map jsTrim
  (lines.foldl processLine ⟨[], [], [], ⟨[], [], []⟩⟩).result

/-! ### Frame sampler (the interpolation core) -/

/-- Model of `parseRgbaColor`: first match of the regex
`rgba?\((\d+),\s*(\d+),\s*(\d+)(?:,\s*([\d.]+))?\)` anywhere in the string;
the alpha capture defaults to 1 when absent. -/
def matchRgbaAt (s : JStr) : Option (ℚ × ℚ × ℚ × JSNum) :=
  match matchLit "rgb".toList s with
  | none => none
  | some r0 =>
    let r1 := match r0 with
      | 'a' :: rest => rest
      | other => other
    match r1 with
    | '(' :: r2 => matchComponents r2
    | _ => none
where
  matchNum (s : JStr) : Option (ℕ × JStr) :=
    let d := s.takeWhile (fun c => (decDigitVal c).isSome)
    if d = [] then none else some (decDigitsVal d, s.drop d.length)
  matchComponents (s : JStr) : Option (ℚ × ℚ × ℚ × JSNum) :=
    match matchNum s with
    | none => none
    | some (r, s1) =>
      match s1 with
      | ',' :: s2 =>
        let s3 := s2.dropWhile isJsWs
        match matchNum s3 with
        | none => none
        | some (g, s4) =>
          match s4 with
          | ',' :: s5 =>
            let s6 := s5.dropWhile isJsWs
            match matchNum s6 with
            | none => none
            | some (b, s7) =>
              match s7 with
              | ')' :: _ => some ((r : ℚ), (g : ℚ), (b : ℚ), JSNum.val 1)
              | ',' :: s8 =>
                let s9 := s8.dropWhile isJsWs
                let ad := s9.takeWhile (fun c => (decDigitVal c).isSome ∨ c = '.')
                if ad = [] then none
                else
                  match s9.drop ad.length with
                  | ')' :: _ => some ((r : ℚ), (g : ℚ), (b : ℚ), jsParseFloat ad)
                  | _ => none
              | _ => none
          | _ => none
      | _ => none

/-- Scan for the first `rgba(...)` match anywhere in the string (fuel =
length). -/
def parseRgbaColorF : ℕ → JStr → Option (ℚ × ℚ × ℚ × JSNum)
  | 0, _ => none
  | _, [] => none
  | f + 1, c :: rest =>
    match matchRgbaAt (c :: rest) with
    | some v => some v
    | none => parseRgbaColorF f rest

/-- Model of `parseRgbaColor`: components of the first `rgba(...)`
occurrence, or `none` when the regex does not match. -/
def parseRgbaColor (color : JStr) : Option (ℚ × ℚ × ℚ × JSNum) :=
  parseRgbaColorF color.length color

/-- Model of `interpolateColor`: parse both colors, linearly interpolate
the rounded r, g, b components and the exact alpha, and render; if either
color fails to parse, the source color is returned unchanged.  `progress`
may be `NaN`, which contaminates every component. -/
def interpolateColor (fromColor toColor : JStr) (progress : JSNum) : JStr :=
  match parseRgbaColor fromColor, parseRgbaColor toColor with
  | some f, some t =>
    let r := jsRound ((JSNum.val f.1).add (((JSNum.val t.1).sub (JSNum.val f.1)).mul progress))
    let g := jsRound ((JSNum.val f.2.1).add (((JSNum.val t.2.1).sub (JSNum.val f.2.1)).mul progress))
    let b := jsRound ((JSNum.val f.2.2.1).add (((JSNum.val t.2.2.1).sub (JSNum.val f.2.2.1)).mul progress))
    let a := f.2.2.2.add ((t.2.2.2.sub f.2.2.2).mul progress)
    rgbaChars r g b (jsToFixed3 a)
  | _, _ => fromColor

/-- Model of `applyAlphaToColor`. -/
def applyAlphaToColor (color : JStr) (alpha : ℚ) : JStr :=
  match parseRgbaColor color with
  | none => color
  | some f =>
    rgbaChars (JSNum.val f.1) (JSNum.val f.2.1) (JSNum.val f.2.2.1)
      (jsToFixed3 (JSNum.val alpha))

/-- The mutable visual state threaded through `generateFrameData`
(`currentState`). -/
structure VisualState where
  primaryColor : JStr
  secondaryColor : JStr
  outlineColor : JStr
  backColor : JStr
  alpha : JSNum
  fontSize : JSNum
  rotation : JSNum
deriving DecidableEq

/-- Model of `applyOverrideToState` (the initial-override switch). -/
def applyOverrideToState (state : VisualState) (override : OverrideTag) : VisualState :=
  if override.type = "1c".toList ∨ override.type = "c".toList then
    { state with primaryColor := parseColor ('&' :: 'H' :: override.value) }
  else if override.type = "2c".toList then
    { state with secondaryColor := parseColor ('&' :: 'H' :: override.value) }
  else if override.type = "3c".toList then
    { state with outlineColor := parseColor ('&' :: 'H' :: override.value) }
  else if override.type = "4c".toList then
    { state with backColor := parseColor ('&' :: 'H' :: override.value) }
  else if override.type = "alpha".toList ∨ override.type = "1a".toList then
    { state with alpha := ((JSNum.val 255).sub (jsParseIntHex override.value)).div (JSNum.val 255) }
  else if override.type = "fs".toList then
    { state with fontSize := jsParseFloat override.value }
  else if override.type = "frz".toList then
    { state with rotation := jsParseFloat override.value }
  else state

/-- Model of `interpolateFrameData`: fold over `Object.entries` of the
transition's target record.  Each property interpolates from the frame
value *before this transition* (`frameData`, not the partially updated
result) toward the target.  Only the property kinds of the source switch
are handled (`1c`/`c`, `2c`, `3c`, `alpha`/`1a`, `fs`, `frz`). -/
def interpStep (frameData : FrameData) (progress : JSNum) (result : FrameData)
    (tv : JStr × JStr) : FrameData :=
  if tv.1 = "1c".toList ∨ tv.1 = "c".toList then
    { result with primaryColor :=
        interpolateColor frameData.primaryColor (parseColor ('&' :: 'H' :: tv.2)) progress }
  else if tv.1 = "2c".toList then
    { result with secondaryColor :=
        interpolateColor frameData.secondaryColor (parseColor ('&' :: 'H' :: tv.2)) progress }
  else if tv.1 = "3c".toList then
    { result with outlineColor :=
        interpolateColor frameData.outlineColor (parseColor ('&' :: 'H' :: tv.2)) progress }
  else if tv.1 = "alpha".toList ∨ tv.1 = "1a".toList then
    let targetAlpha := ((JSNum.val 255).sub (jsParseIntHex tv.2)).div (JSNum.val 255)
    { result with alpha :=
        frameData.alpha.add ((targetAlpha.sub frameData.alpha).mul progress) }
  else if tv.1 = "fs".toList then
    let targetSize := jsParseFloat tv.2
    { result with fontSize :=
        frameData.fontSize.add ((targetSize.sub frameData.fontSize).mul progress) }
  else if tv.1 = "frz".toList then
    let targetRotation := jsParseFloat tv.2
    { result with rotation :=
        frameData.rotation.add ((targetRotation.sub frameData.rotation).mul progress) }
  else result

/-- See `interpStep` above for the per-entry switch. -/
def interpolateFrameData (frameData : FrameData) (transition : Transition)
    (progress : JSNum) : FrameData :=
  transition.targetChanges.foldl (interpStep frameData progress) frameData

/-- The body of the sampling loop at one timestamp: start from the current
state, then apply every transition whose window contains the timestamp,
sequentially, with `progress = (t - start) / (end - start)` (a zero-width
window gives `0 / 0`, the non-finite marker). -/
def transStep (timestamp : ℚ) (frameData : FrameData) (transition : Transition) : FrameData :=
  if transition.startOffset ≤ timestamp ∧ timestamp ≤ transition.endOffset then
    let progress :=
      ((JSNum.val timestamp).sub (JSNum.val transition.startOffset)).div
        ((JSNum.val transition.endOffset).sub (JSNum.val transition.startOffset))
    interpolateFrameData frameData transition progress
  else frameData

/-- See `transStep` above for the per-transition window check. -/
def frameAtTimestamp (state : VisualState) (transitions : List Transition)
    (timestamp : ℚ) : FrameData :=
  transitions.foldl (transStep timestamp)
    ⟨timestamp, state.primaryColor, state.secondaryColor, state.outlineColor,
      state.backColor, state.alpha, state.fontSize, state.rotation⟩

/-- The fuel-indexed sampling loop
`for (t = 0; t <= duration; t += frameInterval)`.  `none` means the fuel ran
out before the loop condition failed; `defaultFuel` below always suffices
when the interval is positive, and no fuel suffices when it is not (the JS
loop would not terminate). -/
def genFramesLoop (state : VisualState) (transitions : List Transition)
    (duration frameInterval : ℚ) : ℕ → ℚ → Option (List FrameData)
  | 0, _ => none
  | fuel + 1, t =>
    if t ≤ duration then
      (genFramesLoop state transitions duration frameInterval fuel (t + frameInterval)).map
        (fun l => frameAtTimestamp state transitions t :: l)
    else some []

/-- Fuel sufficient for the sampling loop whenever the interval is
positive. -/
def defaultFuel (duration frameInterval : ℚ) : ℕ :=
  if 0 < frameInterval then (⌊duration / frameInterval⌋).toNat + 2 else 0

/-- The initial visual state of `generateFrameData`: style defaults, then
every override of the first text segment applied in order. -/
def initialState (dialogue : AssDialogue) (style : AssStyle) : VisualState :=
  let base : VisualState :=
    ⟨style.primaryColour, style.secondaryColour, style.outlineColour,
      style.backColour, JSNum.val 1, JSNum.val style.fontsize, JSNum.val style.angle⟩
  match dialogue.segments with
  | some (firstSegment :: _) => firstSegment.overrides.foldl applyOverrideToState base
  | _ => base

/-- Model of `generateFrameData`: sample every `1000 / frameRate` ms from 0
through `duration = (end - start) * 1000`.  The fuel-indexed loop is run with
`defaultFuel`, which is proved sufficient whenever `frameRate > 0`; when the
JS loop would not terminate the model returns `[]`. -/
def generateFrameData (dialogue : AssDialogue) (style : AssStyle)
    (frameRate : ℚ := 30) : List FrameData :=
  (genFramesLoop (initialState dialogue style) (dialogue.transitions.getD [])
    ((dialogue.end_ - dialogue.start) * 1000) (1000 / frameRate)
    (defaultFuel ((dialogue.end_ - dialogue.start) * 1000) (1000 / frameRate)) 0).getD []

/-- Model of `getFrameDataAtTime`.  The source lazily assigns
`dialogue.frames` and then scans the cached frames for the nearest
timestamp (first minimum wins); the mutation is modelled by returning the
updated dialogue alongside the result.  A `none` result models the
`TypeError` the source throws when it reads `frames[0].timestamp` of an
empty frame list. -/
def getFrameDataAtTime (dialogue : AssDialogue) (currentTime : ℚ)
    (style : AssStyle) : Option FrameData × AssDialogue :=
  let fs :=
    match dialogue.frames with
    | none => generateFrameData dialogue style
    | some fs => fs
  let dialogue' := { dialogue with frames := some fs }
  let relativeTime := (currentTime - dialogue.start) * 1000
  match fs with
  | [] => (none, dialogue')
  | f0 :: _ =>
    let best := fs.foldl
      (fun acc f =>
        let diff := jsAbs (relativeTime - f.timestamp)
        if diff < acc.2 then (f, diff) else acc)
      (f0, jsAbs (relativeTime - f0.timestamp))
    (some best.1, dialogue')

/-- Model of `getActiveDialogues`: filter by
`currentTime >= start && currentTime <= end`. -/
def getActiveDialogues (subtitle : AssSubtitle) (currentTime : ℚ) : List AssDialogue :=
  subtitle.dialogues.filter
    (fun dialogue => dialogue.start ≤ currentTime ∧ currentTime ≤ dialogue.end_)

/-! ### Lemmas about the sampling loop -/

theorem interpStep_timestamp (fd : FrameData) (p : JSNum) (r : FrameData) (tv : JStr × JStr) :
    (interpStep fd p r tv).timestamp = r.timestamp := by
  unfold interpStep
  split_ifs <;> rfl

theorem foldl_timestamp_eq {β : Type} (step : FrameData → β → FrameData)
    (hstep : ∀ r b, (step r b).timestamp = r.timestamp) :
    ∀ (l : List β) (acc : FrameData), (l.foldl step acc).timestamp = acc.timestamp := by
  intro l
  induction l with
  | nil => intro acc; rfl
  | cons b rest ih => intro acc; rw [List.foldl_cons, ih, hstep]

theorem interpolateFrameData_timestamp (fd : FrameData) (tr : Transition) (p : JSNum) :
    (interpolateFrameData fd tr p).timestamp = fd.timestamp := by
  unfold interpolateFrameData
  exact foldl_timestamp_eq _ (interpStep_timestamp fd p) _ _

theorem transStep_timestamp (t : ℚ) (fd : FrameData) (tr : Transition) :
    (transStep t fd tr).timestamp = fd.timestamp := by
  unfold transStep
  split_ifs with h
  · exact interpolateFrameData_timestamp _ _ _
  · rfl

theorem frameAtTimestamp_timestamp (state : VisualState) (trs : List Transition) (t : ℚ) :
    (frameAtTimestamp state trs t).timestamp = t := by
  unfold frameAtTimestamp
  exact foldl_timestamp_eq _ (transStep_timestamp t) _ _

theorem genFramesLoop_none_of_nonpos (state : VisualState) (trs : List Transition)
    (duration frameInterval : ℚ) (hd : frameInterval ≤ 0) :
    ∀ fuel t, t ≤ duration →
      genFramesLoop state trs duration frameInterval fuel t = none := by
  intro fuel
  induction fuel with
  | zero => intro t _; rfl
  | succ f ih =>
    intro t ht
    simp only [genFramesLoop, if_pos ht]
    rw [ih (t + frameInterval) (by linarith)]
    rfl

theorem genFramesLoop_isSome (state : VisualState) (trs : List Transition)
    (duration frameInterval : ℚ) :
    ∀ (fuel : ℕ) (t : ℚ), duration < t + (fuel : ℚ) * frameInterval →
      (genFramesLoop state trs duration frameInterval (fuel + 1) t).isSome := by
  intro fuel
  induction fuel with
  | zero =>
    intro t ht
    push_cast at ht
    rw [genFramesLoop, if_neg (by linarith : ¬ t ≤ duration)]
    rfl
  | succ f ih =>
    intro t ht
    by_cases h : t ≤ duration
    · rw [genFramesLoop, if_pos h]
      have h2 := ih (t + frameInterval) (by push_cast at ht ⊢; linarith)
      rcases Option.isSome_iff_exists.1 h2 with ⟨l, hl⟩
      rw [hl]
      rfl
    · rw [genFramesLoop, if_neg h]
      rfl

theorem genFramesLoop_eq_cons (state : VisualState) (trs : List Transition)
    (duration frameInterval : ℚ) (fuel : ℕ) (t : ℚ) (l : List FrameData)
    (h : genFramesLoop state trs duration frameInterval (fuel + 1) t = some l)
    (ht : t ≤ duration) :
    ∃ rest, l = frameAtTimestamp state trs t :: rest ∧
      genFramesLoop state trs duration frameInterval fuel (t + frameInterval) = some rest := by
  simp only [genFramesLoop, if_pos ht] at h
  rcases Option.map_eq_some'.1 h with ⟨rest, hrest, hcons⟩
  exact ⟨rest, hcons.symm, hrest⟩

theorem genFramesLoop_eq_nil (state : VisualState) (trs : List Transition)
    (duration frameInterval : ℚ) (fuel : ℕ) (t : ℚ) (l : List FrameData)
    (h : genFramesLoop state trs duration frameInterval fuel t = some l)
    (ht : ¬ t ≤ duration) : l = [] := by
  cases fuel with
  | zero => exact absurd h (by simp [genFramesLoop])
  | succ f =>
    simp only [genFramesLoop, if_neg ht] at h
    exact (Option.some.injEq _ _ ▸ h).symm

theorem genFramesLoop_head (state : VisualState) (trs : List Transition)
    (duration frameInterval : ℚ) (fuel : ℕ) (t : ℚ) (l : List FrameData)
    (h : genFramesLoop state trs duration frameInterval fuel t = some l)
    (ht : t ≤ duration) :
    l.head? = some (frameAtTimestamp state trs t) := by
  cases fuel with
  | zero => exact absurd h (by simp [genFramesLoop])
  | succ f =>
    rcases genFramesLoop_eq_cons state trs duration frameInterval f t l h ht with ⟨rest, hl, _⟩
    rw [hl]
    rfl

theorem genFramesLoop_chain (state : VisualState) (trs : List Transition)
    (duration frameInterval : ℚ) :
    ∀ fuel t l, genFramesLoop state trs duration frameInterval fuel t = some l →
      (∀ f ∈ l.head?, f.timestamp = t) ∧
        List.Chain' (fun a b => b.timestamp = a.timestamp + frameInterval) l := by
  intro fuel
  induction fuel with
  | zero => intro t l h; exact absurd h (by simp [genFramesLoop])
  | succ f ih =>
    intro t l h
    by_cases ht : t ≤ duration
    · rcases genFramesLoop_eq_cons state trs duration frameInterval f t l h ht with
        ⟨rest, hl, hrest⟩
      rcases ih (t + frameInterval) rest hrest with ⟨ihhead, ihchain⟩
      subst hl
      refine ⟨?_, ?_⟩
      · intro fr hfr
        simp only [List.head?_cons, Option.mem_def, Option.some.injEq] at hfr
        rw [← hfr, frameAtTimestamp_timestamp]
      · rw [List.chain'_cons']
        refine ⟨?_, ihchain⟩
        intro b hb
        rw [ihhead b hb, frameAtTimestamp_timestamp]
    · rw [genFramesLoop_eq_nil state trs duration frameInterval _ t l h ht]
      exact ⟨by simp, by simp⟩

theorem genFramesLoop_last (state : VisualState) (trs : List Transition)
    (duration frameInterval : ℚ) :
    ∀ fuel t l, genFramesLoop state trs duration frameInterval fuel t = some l →
      t ≤ duration →
      ∃ h : l ≠ [], (l.getLast h).timestamp ≤ duration ∧
        duration - frameInterval < (l.getLast h).timestamp := by
  intro fuel
  induction fuel with
  | zero => intro t l h; exact absurd h (by simp [genFramesLoop])
  | succ f ih =>
    intro t l h ht
    rcases genFramesLoop_eq_cons state trs duration frameInterval f t l h ht with
      ⟨rest, hl, hrest⟩
    subst hl
    by_cases h2 : t + frameInterval ≤ duration
    · rcases ih (t + frameInterval) rest hrest h2 with ⟨hne, hle, hgt⟩
      refine ⟨List.cons_ne_nil _ _, ?_, ?_⟩
      · rw [List.getLast_cons hne]; exact hle
      · rw [List.getLast_cons hne]; exact hgt
    · have : rest = [] :=
        genFramesLoop_eq_nil state trs duration frameInterval f (t + frameInterval) rest
          hrest h2
      subst this
      refine ⟨List.cons_ne_nil _ _, ?_, ?_⟩
      · simpa [List.getLast, frameAtTimestamp_timestamp] using ht
      · simp only [List.getLast, frameAtTimestamp_timestamp]
        linarith [not_le.1 h2]

theorem genFramesLoop_mem (state : VisualState) (trs : List Transition)
    (duration frameInterval : ℚ) (hΔ : 0 < frameInterval) :
    ∀ fuel t l, genFramesLoop state trs duration frameInterval fuel t = some l →
      ∀ k : ℕ, t + k * frameInterval ≤ duration →
        ∃ f ∈ l, f.timestamp = t + k * frameInterval := by
  intro fuel
  induction fuel with
  | zero => intro t l h; exact absurd h (by simp [genFramesLoop])
  | succ f ih =>
    intro t l h k hk
    have ht : t ≤ duration := by
      have : (0 : ℚ) ≤ k * frameInterval := by positivity
      linarith
    rcases genFramesLoop_eq_cons state trs duration frameInterval f t l h ht with
      ⟨rest, hl, hrest⟩
    subst hl
    cases k with
    | zero =>
      exact ⟨frameAtTimestamp state trs t, List.mem_cons_self _ _,
        by rw [frameAtTimestamp_timestamp]; push_cast; ring⟩
    | succ j =>
      have hj : (t + frameInterval) + j * frameInterval ≤ duration := by
        push_cast at hk ⊢; linarith
      rcases ih (t + frameInterval) rest hrest j hj with ⟨fr, hfr, hts⟩
      exact ⟨fr, List.mem_cons_of_mem _ hfr, by rw [hts]; push_cast; ring⟩

/-- With a positive interval the canonical fuel always suffices, so
`generateFrameData` is exactly the value of the JS loop. -/
theorem generateFrameData_eq_loop (dialogue : AssDialogue) (style : AssStyle)
    (frameRate : ℚ) (hfr : 0 < frameRate) :
    genFramesLoop (initialState dialogue style) (dialogue.transitions.getD [])
        ((dialogue.end_ - dialogue.start) * 1000) (1000 / frameRate)
        (defaultFuel ((dialogue.end_ - dialogue.start) * 1000) (1000 / frameRate)) 0 =
      some (generateFrameData dialogue style frameRate) := by
  have hΔ : 0 < 1000 / frameRate := by positivity
  set duration := (dialogue.end_ - dialogue.start) * 1000 with hdur
  set Δ := 1000 / frameRate with hdelta
  have hfuel : defaultFuel duration Δ = (⌊duration / Δ⌋.toNat + 1) + 1 := by
    simp [defaultFuel, if_pos hΔ]
  have hlt : duration < 0 + ((⌊duration / Δ⌋.toNat + 1 : ℕ) : ℚ) * Δ := by
    have h1 : duration / Δ < ⌊duration / Δ⌋ + 1 := Int.lt_floor_add_one _
    have h2 : (⌊duration / Δ⌋ : ℚ) ≤ (⌊duration / Δ⌋.toNat : ℚ) := by
      exact_mod_cast Int.self_le_toNat _
    have h3 : duration / Δ < (⌊duration / Δ⌋.toNat : ℚ) + 1 := by linarith
    have h4 : duration < ((⌊duration / Δ⌋.toNat : ℚ) + 1) * Δ := by
      rw [div_lt_iff₀ hΔ] at h3
      linarith
    push_cast
    linarith
  have hsome := genFramesLoop_isSome (initialState dialogue style)
    (dialogue.transitions.getD []) duration Δ (⌊duration / Δ⌋.toNat + 1) 0 hlt
  rcases Option.isSome_iff_exists.1 hsome with ⟨l, hl⟩
  have h5 : generateFrameData dialogue style frameRate = l := by
    unfold generateFrameData
    rw [← hdur, ← hdelta, hfuel, hl]
    rfl
  rw [hfuel, hl, h5]

/-! ### Lemmas about the parse pipeline -/

theorem finishDialogue_text (pd : PartialDialogue) (d : AssDialogue)
    (h : finishDialogue pd = some d) : d.text ≠ [] := by
  unfold finishDialogue at h
  rcases hs : pd.start with _ | s <;> rcases he : pd.end_ with _ | e <;>
    rcases ht : pd.text with _ | tx <;> simp only [hs, he, ht] at h
  all_goals try exact Option.noConfusion h
  all_goals split_ifs at h with htx
  all_goals first
    | exact Option.noConfusion h
    | (cases h; exact htx)

theorem parseDialogue_text (line : JStr) (format : List JStr) (d : AssDialogue)
    (h : parseDialogue line format = some d) : d.text ≠ [] := by
  unfold parseDialogue at h
  split_ifs at h with h1
  all_goals first
    | exact Option.noConfusion h
    | exact finishDialogue_text _ _ h

theorem processLine_dialogues (st : ParseState) (line : JStr) :
    (processLine st line).result.dialogues = st.result.dialogues ∨
      ∃ d, parseDialogue line st.dialogueFormat = some d ∧
        (processLine st line).result.dialogues = st.result.dialogues ++ [d] := by
  unfold processLine
  split_ifs with h1 h2 h3 h4 h5 h6 h7 h8 <;> try (left; rfl)
  · rcases hps : parseStyle line st.styleFormat with _ | p <;> exact Or.inl rfl
  · rcases hpd : parseDialogue line st.dialogueFormat with _ | d
    · exact Or.inl rfl
    · exact Or.inr ⟨d, rfl, rfl⟩

theorem foldl_processLine_text (lines : List JStr) :
    ∀ st, ∀ d ∈ (lines.foldl processLine st).result.dialogues,
      d ∈ st.result.dialogues ∨ d.text ≠ [] := by
  induction lines with
  | nil => intro st d hd; exact Or.inl hd
  | cons line rest ih =>
    intro st d hd
    rcases ih (processLine st line) d hd with hmem | htext
    · rcases processLine_dialogues st line with heq | ⟨d', hpd, heq⟩
      · rw [heq] at hmem
        exact Or.inl hmem
      · rw [heq] at hmem
        rcases List.mem_append.1 hmem with h | h
        · exact Or.inl h
        · right
          rw [List.mem_singleton.1 h]
          exact parseDialogue_text _ _ _ hpd
    · exact Or.inr htext

theorem foldl_processLine_len (lines : List JStr) :
    ∀ st, (lines.foldl processLine st).result.dialogues.length ≤
      st.result.dialogues.length + lines.length := by
  induction lines with
  | nil => intro st; simp
  | cons line rest ih =>
    intro st
    have h1 := ih (processLine st line)
    have h2 : (processLine st line).result.dialogues.length ≤
        st.result.dialogues.length + 1 := by
      rcases processLine_dialogues st line with heq | ⟨d, _, heq⟩ <;> rw [heq] <;> simp
    calc ((line :: rest).foldl processLine st).result.dialogues.length
        ≤ (processLine st line).result.dialogues.length + rest.length := h1
      _ ≤ st.result.dialogues.length + 1 + rest.length := by omega
      _ = st.result.dialogues.length + (line :: rest).length := by
          simp [List.length_cons]; omega

/-! ### Lemmas about the segment scanner -/

theorem segLoopF_inv :
    ∀ (fuel : ℕ) (s : JStr) (idx : ℚ) (cur : List OverrideTag),
      (∀ o ∈ cur, o.startIndex ≤ idx) →
      (∀ seg ∈ segLoopF fuel s idx cur,
          seg.endIndex = seg.startIndex + seg.text.length ∧
            ∀ o ∈ seg.overrides, o.startIndex ≤ seg.startIndex) ∧
        (∀ f ∈ (segLoopF fuel s idx cur).head?, f.startIndex = idx) ∧
        List.Chain' (fun a b => b.startIndex = a.endIndex) (segLoopF fuel s idx cur) := by
  intro fuel
  induction fuel with
  | zero => intro s idx cur _; exact ⟨by simp [segLoopF], by simp [segLoopF], by simp [segLoopF]⟩
  | succ f ih =>
    intro s idx cur hcur
    match s with
    | [] => exact ⟨by simp [segLoopF], by simp [segLoopF], by simp [segLoopF]⟩
    | c :: rest =>
      by_cases hc : c = '{'
      · rw [segLoopF, if_pos hc]
        rcases hsp : splitFirst '}' rest with _ | p
        · exact ih rest idx cur hcur
        · refine ih p.2 idx _ ?_
          intro o ho
          rcases List.mem_append.1 ho with h | h
          · exact hcur o h
          · rcases List.mem_map.1 h with ⟨o', _, ho'⟩
            rw [← ho']
      · by_cases hc2 : c = '}'
        · rw [segLoopF, if_neg hc, if_pos hc2]
          exact ih rest idx cur hcur
        · rw [segLoopF, if_neg hc, if_neg hc2]
          have hlen : (0 : ℚ) ≤ (((c :: rest).takeWhile (fun ch => ch ≠ '{' ∧ ch ≠ '}')).length : ℚ) := by
            positivity
          have hrec := ih ((c :: rest).drop ((c :: rest).takeWhile (fun ch => ch ≠ '{' ∧ ch ≠ '}')).length)
            (idx + ((c :: rest).takeWhile (fun ch => ch ≠ '{' ∧ ch ≠ '}')).length) cur
            (fun o ho => le_trans (hcur o ho) (by linarith))
          refine ⟨?_, ?_, ?_⟩
          · intro seg hseg
            rcases List.mem_cons.1 hseg with h | h
            · subst h
              exact ⟨rfl, fun o ho => hcur o ho⟩
            · exact hrec.1 seg h
          · intro fr hfr
            simp only [List.head?_cons, Option.mem_def, Option.some.injEq] at hfr
            rw [← hfr]
          · rw [List.chain'_cons']
            refine ⟨?_, hrec.2.2⟩
            intro b hb
            exact hrec.2.1 b hb

/-! ### Lemmas about the hex codec -/

theorem hexDigitVal_class (c : Char) (v : ℕ) (h : hexDigitVal c = some v) :
    isJsWs c = false ∧ c ≠ '-' ∧ c ≠ '+' ∧ c ≠ 'x' ∧ c ≠ 'X' := by
  have hne : ∀ c', hexDigitVal c' = none → c ≠ c' := by
    intro c' hc' e
    subst e
    rw [h] at hc'
    exact Option.noConfusion hc'
  refine ⟨?_, hne '-' (by decide), hne '+' (by decide), hne 'x' (by decide),
    hne 'X' (by decide)⟩
  have h1 := hne ' ' (by decide)
  have h2 := hne '\t' (by decide)
  have h3 := hne '\n' (by decide)
  have h4 := hne '\r' (by decide)
  simp [isJsWs, h1, h2, h3, h4]

theorem jsParseIntHex_pair (c1 c2 : Char) (v1 v2 : ℕ)
    (h1 : hexDigitVal c1 = some v1) (h2 : hexDigitVal c2 = some v2) :
    jsParseIntHex [c1, c2] = JSNum.val ((16 * v1 + v2 : ℕ) : ℚ) := by
  rcases hexDigitVal_class c1 v1 h1 with ⟨hw1, hm1, hp1, _, _⟩
  rcases hexDigitVal_class c2 v2 h2 with ⟨_, _, _, hx2, hX2⟩
  have hdw : ([c1, c2].dropWhile isJsWs) = [c1, c2] := by
    rw [List.dropWhile_cons_of_neg (by simp [hw1])]
  have hss : stripSign [c1, c2] = (false, [c1, c2]) := by
    simp only [stripSign]
    rw [if_neg hm1, if_neg hp1]
  have h0x : ¬ (([c1, c2].take 2 = ['0', 'x']) ∨ ([c1, c2].take 2 = ['0', 'X'])) := by
    simp [hx2, hX2]
  have htw : ([c1, c2].takeWhile (fun c => (hexDigitVal c).isSome)) = [c1, c2] := by
    rw [List.takeWhile_cons_of_pos (by simp [h1]), List.takeWhile_cons_of_pos (by simp [h2]),
      List.takeWhile_nil]
  have hv : hexDigitsVal [c1, c2] = 16 * v1 + v2 := by
    unfold hexDigitsVal
    simp [h1, h2]
    ring
  simp only [jsParseIntHex, hdw, hss]
  rw [if_neg h0x, htw]
  rw [if_neg (by simp), hv]
  simp

/-- With a positive frame rate and a non-negative duration the first sample
of `generateFrameData` is the frame at timestamp 0. -/
theorem generateFrameData_head (d : AssDialogue) (s : AssStyle) (fr : ℚ)
    (hfr : 0 < fr) (hd : d.start ≤ d.end_) :
    ∃ rest, generateFrameData d s fr =
      frameAtTimestamp (initialState d s) (d.transitions.getD []) 0 :: rest := by
  have hloop := generateFrameData_eq_loop d s fr hfr
  have hdur : (0 : ℚ) ≤ (d.end_ - d.start) * 1000 := by nlinarith
  have hh := genFramesLoop_head (initialState d s) (d.transitions.getD [])
    ((d.end_ - d.start) * 1000) (1000 / fr) _ 0 _ hloop hdur
  rcases hgen : generateFrameData d s fr with _ | ⟨f0, rest⟩
  · rw [hgen] at hh
    exact Option.noConfusion hh
  · rw [hgen] at hh
    simp only [List.head?_cons, Option.some.injEq] at hh
    exact ⟨rest, by rw [hh]⟩

/-! ### Shared concrete fixtures used by witnesses and counterexamples -/

/-- A fully populated concrete style (`Default`, font size 20, angle 0). -/
def styleEx : AssStyle :=
  { name := "Default".toList, fontname := "Arial".toList, fontsize := 20,
    primaryColour := "rgba(255, 255, 255, 1.000)".toList,
    secondaryColour := "rgba(255, 0, 0, 1.000)".toList,
    outlineColour := "rgba(0, 0, 0, 1.000)".toList,
    backColour := "rgba(0, 0, 0, 1.000)".toList,
    bold := false, italic := false, underline := false, strikeOut := false,
    scaleX := 100, scaleY := 100, spacing := 0, angle := 0, borderStyle := 1,
    outline := 0, shadow := 0, alignment := 2, marginL := 0, marginR := 0,
    marginV := 0, encoding := 1 }

/-- A placeholder dialogue used as the `getD` default of list lookups. -/
def blankDialogue : AssDialogue := { start := 0, end_ := 0, text := [] }

/-- Script content whose single `Dialogue:` line has `Start` after `End`
(start 3 s, end 1 s). -/
def exContent : JStr :=
  "[Events]\nFormat: Start, End, Text\nDialogue: 0:00:03.00,0:00:01.00,Hi".toList

/-- The dialogue parsed from `exContent`. -/
def exDialogue : AssDialogue := ((parse exContent).dialogues).getD 0 blankDialogue

/-- A one-second dialogue carrying a zero-width transition
`\t(500,500,\fs40)`. -/
def dZero : AssDialogue :=
  { start := 0, end_ := 1, text := "Hi".toList, segments := some [],
    transitions := some [⟨500, 500, [("fs".toList, "40".toList)]⟩] }

/-- A half-second dialogue with no transitions. -/
def dHalf : AssDialogue := { start := 0, end_ := 1/2, text := "Hi".toList }

/-- The dialogue text `A{\fs20}B{\fs30}C` as a character list. -/
def exSeg : JStr :=
  'A' :: '{' :: '\\' :: 'f' :: 's' :: '2' :: '0' :: '}' ::
    'B' :: '{' :: '\\' :: 'f' :: 's' :: '3' :: '0' :: '}' :: 'C' :: []

/-! ### Claim theorems -/

/-- C1 (counterexample): the claim also requires `start <= end` of every
kept dialogue, but `parseDialogue` never checks it.  Parsing `exContent`
(whose dialogue line has start 3 s and end 1 s) yields exactly one
dialogue, with `start = 3 > 1 = end`, which the claim says should have been
dropped. -/
theorem C1_counterexample :
    (parse exContent).dialogues.map (fun d => (d.start, d.end_, d.text)) =
        [(3, 1, ['H', 'i'])] ∧
      ¬ ∀ d ∈ (parse exContent).dialogues, d.start ≤ d.end_ := by
  constructor
  · with_unfolding_all rfl
  · exact of_decide_eq_false (by with_unfolding_all rfl)

/-- C1 (amended): every dialogue accepted by `parse` has `start` and `end`
present (they are total fields of the accepted record, guaranteed by the
acceptance check of `parseDialogue`) and a non-empty stripped `text`;
dialogues failing those checks are dropped.  The relation `start <= end` is
not checked, and dialogues violating it are retained. -/
theorem C1_text_nonempty :
    ∀ (content : JStr), ∀ d ∈ (parse content).dialogues, d.text ≠ [] := by
  intro content d hd
  simp only [parse] at hd
  rcases foldl_processLine_text _ _ d hd with h | h
  · exact absurd h (List.not_mem_nil d)
  · exact h

/-- C1 (witness): the amended theorem applied to the concrete parse of
`exContent`. -/
theorem C1_witness : exDialogue.text ≠ [] :=
  C1_text_nonempty exContent exDialogue (of_decide_eq_true (by with_unfolding_all rfl))

/-- C3: `parse` is a total function of the input text (the model is
structurally recursive over the line list, mirroring the exception-free JS
loop: no operation along the pipeline can throw), and every input yields an
`AssSubtitle` whose dialogue count is bounded by the number of input lines
— each line contributes at most one dialogue, never an error. -/
theorem C3_parse_total (content : JStr) :
    (parse content).dialogues.length ≤ (splitOnChar '\n' content).length := by
  simp only [parse]
  have h := foldl_processLine_len ((splitOnChar '\n' content).map jsTrim)
    ⟨[], [], [], ⟨[], [], []⟩⟩
  simpa using h

/-- C7: `getActiveDialogues` returns exactly the dialogues whose closed
interval `[start, end]` contains the query time (both bounds inclusive),
as a sublist of `subtitle.dialogues` (hence in the original relative
order).  The model is a pure function: the subtitle and its dialogues are
not modified. -/
theorem C7_active_dialogues (subtitle : AssSubtitle) (t : ℚ) :
    (∀ d : AssDialogue,
        d ∈ getActiveDialogues subtitle t ↔
          d ∈ subtitle.dialogues ∧ d.start ≤ t ∧ t ≤ d.end_) ∧
      (getActiveDialogues subtitle t).Sublist subtitle.dialogues := by
  constructor
  · intro d
    simp [getActiveDialogues, List.mem_filter]
  · exact List.filter_sublist _

/-- C8: `getFrameDataAtTime` touches only the `frames` field: the returned
dialogue is the input dialogue with `frames` assigned; the assigned value
is freshly generated (at the default rate 30) exactly when the cache was
absent and is the cached list unchanged when it was present; and a second
call on the updated dialogue — with any time and style — returns it
untouched (the cache is populated only once).  Everything else
(`subtitle`, the other dialogue fields) is untouched by the pure model. -/
theorem C8_cache_idempotent (d : AssDialogue) (t t' : ℚ) (s s' : AssStyle) :
    ∃ fs : List FrameData,
      (getFrameDataAtTime d t s).2 = { d with frames := some fs } ∧
        (d.frames = none → fs = generateFrameData d s 30) ∧
        (∀ fs0, d.frames = some fs0 → fs = fs0) ∧
        (getFrameDataAtTime { d with frames := some fs } t' s').2 =
          { d with frames := some fs } := by
  rcases hf : d.frames with _ | fs0
  · refine ⟨generateFrameData d s 30, ?_, fun _ => rfl, ?_, ?_⟩
    · simp only [getFrameDataAtTime, hf]
      rcases generateFrameData d s 30 with _ | ⟨f0, rest⟩ <;> rfl
    · intro fs0 h0
      exact Option.noConfusion h0
    · simp only [getFrameDataAtTime]
      rcases generateFrameData d s 30 with _ | ⟨f0, rest⟩ <;> rfl
  · refine ⟨fs0, ?_, ?_, ?_, ?_⟩
    · simp only [getFrameDataAtTime, hf]
      rcases fs0 with _ | ⟨f0, rest⟩ <;> rfl
    · intro h0
      exact Option.noConfusion h0
    · intro fs1 h1
      injection h1
    · simp only [getFrameDataAtTime]
      rcases fs0 with _ | ⟨f0, rest⟩ <;> rfl

/-- C9: with `end >= start` and a positive frame rate,
`generateFrameData` returns a non-empty list whose first sample has
timestamp 0; consequently `getFrameDataAtTime` (which generates at the
default rate 30 when the cache is absent) always finds a first frame and
returns a sample rather than failing. -/
theorem C9_first_frame (d : AssDialogue) (s : AssStyle) (fr : ℚ)
    (hfr : 0 < fr) (hd : d.start ≤ d.end_) :
    (∃ f rest, generateFrameData d s fr = f :: rest ∧ f.timestamp = 0) ∧
      ∀ t : ℚ, d.frames = none → ((getFrameDataAtTime d t s).1).isSome := by
  constructor
  · rcases generateFrameData_head d s fr hfr hd with ⟨rest, hgen⟩
    exact ⟨_, rest, hgen, frameAtTimestamp_timestamp _ _ _⟩
  · intro t hnone
    rcases generateFrameData_head d s 30 (by norm_num) hd with ⟨rest, hgen⟩
    simp only [getFrameDataAtTime, hnone, hgen]
    rfl

/-- C9 (witness): the theorem applied to the concrete half-second dialogue
`dHalf` and style `styleEx` at frame rate 1. -/
theorem C9_witness :
    (∃ f rest, generateFrameData dHalf styleEx 1 = f :: rest ∧ f.timestamp = 0) ∧
      ∀ t : ℚ, dHalf.frames = none → ((getFrameDataAtTime dHalf t styleEx).1).isSome :=
  C9_first_frame dHalf styleEx 1 (by norm_num) (by norm_num [dHalf])

/-- C10: the sampling loop of `generateFrameData` terminates for every
positive frame rate — some fuel (the canonical `defaultFuel`) makes the
fuel-indexed loop complete — and positivity is a genuine precondition: for
a negative frame rate (so a negative step `1000 / frameRate`) and a
non-negative duration, no amount of fuel completes the loop, because the
loop variable never moves past `duration`. -/
theorem C10_termination (d : AssDialogue) (s : AssStyle) (fr : ℚ) :
    (0 < fr →
        ∃ fuel, (genFramesLoop (initialState d s) (d.transitions.getD [])
          ((d.end_ - d.start) * 1000) (1000 / fr) fuel 0).isSome) ∧
      (fr < 0 → 0 ≤ (d.end_ - d.start) * 1000 → ∀ fuel,
        genFramesLoop (initialState d s) (d.transitions.getD [])
          ((d.end_ - d.start) * 1000) (1000 / fr) fuel 0 = none) := by
  constructor
  · intro hfr
    refine ⟨defaultFuel ((d.end_ - d.start) * 1000) (1000 / fr), ?_⟩
    rw [generateFrameData_eq_loop d s fr hfr]
    rfl
  · intro hfr hdur fuel
    have hΔ : 1000 / fr ≤ 0 := le_of_lt (div_neg_of_pos_of_neg (by norm_num) hfr)
    exact genFramesLoop_none_of_nonpos _ _ _ _ hΔ fuel 0 hdur

/-- C10 (witness): termination for the concrete dialogue `dHalf` at frame
rate 1 — the canonical fuel completes the loop. -/
theorem C10_witness :
    ∃ fuel, (genFramesLoop (initialState dHalf styleEx) (dHalf.transitions.getD [])
      ((dHalf.end_ - dHalf.start) * 1000) (1000 / 1) fuel 0).isSome :=
  (C10_termination dHalf styleEx 1).1 (by norm_num)

/-- C4 (amended): for `end >= start` and a positive frame rate the sampled
timestamps start at 0, successive timestamps differ by exactly
`1000 / frameRate`, the sequence is strictly ascending, the last timestamp
lies within one frame interval below `duration = (end - start) * 1000`, and
a sample at `duration` itself is present precisely when `duration` is an
exact natural multiple of the frame interval (the unconditional inclusion
claimed by the specification fails, see the counterexample). -/
theorem C4_timestamps (d : AssDialogue) (s : AssStyle) (fr : ℚ)
    (hfr : 0 < fr) (hd : d.start ≤ d.end_) :
    ((generateFrameData d s fr).map FrameData.timestamp).head? = some 0 ∧
      List.Chain' (fun a b => b = a + 1000 / fr)
        ((generateFrameData d s fr).map FrameData.timestamp) ∧
      List.Pairwise (· < ·) ((generateFrameData d s fr).map FrameData.timestamp) ∧
      (∀ h : generateFrameData d s fr ≠ [],
        ((generateFrameData d s fr).getLast h).timestamp ≤ (d.end_ - d.start) * 1000 ∧
          (d.end_ - d.start) * 1000 - 1000 / fr <
            ((generateFrameData d s fr).getLast h).timestamp) ∧
      ∀ k : ℕ, (k : ℚ) * (1000 / fr) = (d.end_ - d.start) * 1000 →
        ∃ f ∈ generateFrameData d s fr, f.timestamp = (d.end_ - d.start) * 1000 := by
  have hΔ : 0 < 1000 / fr := by positivity
  have hdur : (0 : ℚ) ≤ (d.end_ - d.start) * 1000 := by nlinarith
  have hloop := generateFrameData_eq_loop d s fr hfr
  have hchain := genFramesLoop_chain (initialState d s) (d.transitions.getD [])
    ((d.end_ - d.start) * 1000) (1000 / fr) _ 0 _ hloop
  have hmapchain : List.Chain' (fun a b => b = a + 1000 / fr)
      ((generateFrameData d s fr).map FrameData.timestamp) := by
    rw [List.chain'_map]
    exact hchain.2
  refine ⟨?_, hmapchain, ?_, ?_, ?_⟩
  · rcases generateFrameData_head d s fr hfr hd with ⟨rest, hgen⟩
    rw [hgen]
    simp [frameAtTimestamp_timestamp]
  · have hlt : List.Chain' (· < ·) ((generateFrameData d s fr).map FrameData.timestamp) :=
      hmapchain.imp (fun {a b} hab => by rw [hab]; linarith)
    exact List.chain'_iff_pairwise.1 hlt
  · intro hne
    rcases genFramesLoop_last (initialState d s) (d.transitions.getD [])
        ((d.end_ - d.start) * 1000) (1000 / fr) _ 0 _ hloop hdur with ⟨hne', hle, hgt⟩
    exact ⟨hle, by linarith⟩
  · intro k hk
    have := genFramesLoop_mem (initialState d s) (d.transitions.getD [])
      ((d.end_ - d.start) * 1000) (1000 / fr) hΔ _ 0 _ hloop k (by rw [zero_add, hk])
    rcases this with ⟨f, hfmem, hfts⟩
    exact ⟨f, hfmem, by rw [hfts, zero_add, hk]⟩

/-- C4 (witness): the amended theorem applied to the half-second dialogue
`dHalf` at frame rate 1. -/
theorem C4_witness :
    ((generateFrameData dHalf styleEx 1).map FrameData.timestamp).head? = some 0 ∧
      List.Chain' (fun a b => b = a + 1000 / 1)
        ((generateFrameData dHalf styleEx 1).map FrameData.timestamp) ∧
      List.Pairwise (· < ·) ((generateFrameData dHalf styleEx 1).map FrameData.timestamp) ∧
      (∀ h : generateFrameData dHalf styleEx 1 ≠ [],
        ((generateFrameData dHalf styleEx 1).getLast h).timestamp ≤
            (dHalf.end_ - dHalf.start) * 1000 ∧
          (dHalf.end_ - dHalf.start) * 1000 - 1000 / 1 <
            ((generateFrameData dHalf styleEx 1).getLast h).timestamp) ∧
      ∀ k : ℕ, (k : ℚ) * (1000 / 1) = (dHalf.end_ - dHalf.start) * 1000 →
        ∃ f ∈ generateFrameData dHalf styleEx 1,
          f.timestamp = (dHalf.end_ - dHalf.start) * 1000 :=
  C4_timestamps dHalf styleEx 1 (by norm_num) (by norm_num [dHalf])

/-- C4 (counterexample): the original claim asserts the sequence always
includes a sample at timestamp `duration` itself.  For `dHalf`
(duration 500 ms) at frame rate 1 (interval 1000 ms) the produced
timestamps are exactly `[0]`: the last sample is within one interval of
500 but no sample at 500 exists. -/
theorem C4_counterexample :
    (generateFrameData dHalf styleEx 1).map FrameData.timestamp = [0] ∧
      ¬ ∃ f ∈ generateFrameData dHalf styleEx 1,
          f.timestamp = (dHalf.end_ - dHalf.start) * 1000 := by
  constructor
  · with_unfolding_all rfl
  · exact of_decide_eq_false (by with_unfolding_all rfl)

/-- C2 (code bug): `generateFrameData` has no divide-by-zero guard.  For
the dialogue `dZero` (one second long, zero-width transition
`\t(500,500,\fs40)`, base font size 20) sampled at frame rate 2, the frame
at the transition instant 500 ms computes
`progress = (500 - 500) / (500 - 500) = 0 / 0 = NaN`, so the frame's font
size is `NaN` — not the claimed progress-1 jump to the target value 40.
(The frame at 1000 ms is back at the base value 20, so the target is never
fully applied at any `t >= startOffset` either.) -/
theorem C2_zero_width_nan :
    dZero.transitions = some [⟨500, 500, [("fs".toList, "40".toList)]⟩] ∧
      (generateFrameData dZero styleEx 2).map (fun f => (f.timestamp, f.fontSize)) =
        [(0, JSNum.val 20), (500, JSNum.nan), (1000, JSNum.val 20)] := by
  constructor
  · rfl
  · with_unfolding_all rfl

/-- C5 (counterexample): for the line `A{\fs20}B{\fs30}C`, the claim says
`startIndex`/`endIndex` are offsets into the original line and each tag
carries the offset of its block in the original text.  The run `B` sits at
original offset 8 and the second block at original offset 9, but the
recorded indices are 1 and 2 — offsets into the concatenation of the plain
runs (`ABC`), because the scanner's index does not advance over blocks.
Index 1 of the original line is `{`, not the `B` run. -/
theorem C5_counterexample :
    (parseTextSegments exSeg).map (fun s => (s.text, s.startIndex, s.endIndex)) =
        [(['A'], 0, 1), (['B'], 1, 2), (['C'], 2, 3)] ∧
      (parseTextSegments exSeg).map
          (fun s => s.overrides.map (fun o => (o.type, o.value, o.startIndex))) =
        [[], [("fs".toList, "20".toList, 1)],
          [("fs".toList, "20".toList, 1), ("fs".toList, "30".toList, 2)]] ∧
      exSeg.get? 8 = some 'B' ∧ exSeg.get? 9 = some '{' ∧ exSeg.get? 1 = some '{' := by
  refine ⟨?_, ?_, rfl, rfl, rfl⟩
  · with_unfolding_all rfl
  · with_unfolding_all rfl

/-- C5 (amended): segment offsets are offsets into the tag-stripped text
(the concatenation of the plain runs): the first segment starts at 0, each
segment's `endIndex` is its `startIndex` plus its text length, consecutive
segments are contiguous, and every override tag of a segment carries an
offset at most the segment's start — the offset recorded when its block
was scanned, shared by all tags of one block. -/
theorem C5_segment_offsets (text : JStr) :
    (∀ seg ∈ parseTextSegments text,
        seg.endIndex = seg.startIndex + seg.text.length ∧
          ∀ o ∈ seg.overrides, o.startIndex ≤ seg.startIndex) ∧
      (∀ f ∈ (parseTextSegments text).head?, f.startIndex = 0) ∧
      List.Chain' (fun a b => b.startIndex = a.endIndex) (parseTextSegments text) :=
  segLoopF_inv text.length text 0 [] (by simp)

/-- C5 (witness): the amended theorem applied to `exSeg`, extracting the
offset facts of its middle segment `B`. -/
theorem C5_witness :
    (⟨['B'], [⟨"fs".toList, "20".toList, 1⟩], 1, 2⟩ : TextSegment).endIndex =
        (⟨['B'], [⟨"fs".toList, "20".toList, 1⟩], 1, 2⟩ : TextSegment).startIndex +
          (⟨['B'], [⟨"fs".toList, "20".toList, 1⟩], 1, 2⟩ : TextSegment).text.length ∧
      ∀ o ∈ (⟨['B'], [⟨"fs".toList, "20".toList, 1⟩], 1, 2⟩ : TextSegment).overrides,
        o.startIndex ≤ (⟨['B'], [⟨"fs".toList, "20".toList, 1⟩], 1, 2⟩ : TextSegment).startIndex :=
  (C5_segment_offsets exSeg).1 _ (of_decide_eq_true (by with_unfolding_all rfl))

/-- C6 (counterexample): the claim says `&H0000FF&` decodes to opaque red
and that every input other than `&H` + 6/8 hex digits yields opaque white.
In fact `parseColor` keeps the trailing `&` in its hex buffer: the 7
characters `0000FF&` are left-padded to `00000FF&`, the pairs become
`00`, `00`, `0F`, `F&`, and `parseInt('F&', 16)` reads the prefix `F`, so
the result is `rgba(15, 15, 0, 1.000)` — neither red nor white. -/
theorem C6_counterexample :
    parseColor "&H0000FF&".toList = "rgba(15, 15, 0, 1.000)".toList ∧
      parseColor "&H0000FF&".toList ≠ "rgba(255, 0, 0, 1.000)".toList ∧
      parseColor "&H0000FF&".toList ≠ whiteChars := by
  refine ⟨?_, ?_, ?_⟩
  · with_unfolding_all rfl
  · exact of_decide_eq_false (by with_unfolding_all rfl)
  · exact of_decide_eq_false (by with_unfolding_all rfl)

/-- C6 (amended): `parseColor` decodes `&H` followed by exactly 8 hex
digits in `AABBGGRR` order to the components `(RR, GG, BB)` with alpha
`(255 - AA) / 255`; with exactly 6 hex digits the padding makes `AA = 00`,
so alpha is 1 (fully opaque); any string not starting with `&H` yields the
opaque white literal.  (Strings starting with `&H` whose remainder is not
exactly 6 or 8 hex digits are *not* mapped to white — see the
counterexample — so the white fallback clause is restricted to inputs
without the `&H` lead-in.) -/
theorem C6_parseColor (a1 a2 b1 b2 g1 g2 r1 r2 : Char)
    (va1 va2 vb1 vb2 vg1 vg2 vr1 vr2 : ℕ)
    (ha1 : hexDigitVal a1 = some va1) (ha2 : hexDigitVal a2 = some va2)
    (hb1 : hexDigitVal b1 = some vb1) (hb2 : hexDigitVal b2 = some vb2)
    (hg1 : hexDigitVal g1 = some vg1) (hg2 : hexDigitVal g2 = some vg2)
    (hr1 : hexDigitVal r1 = some vr1) (hr2 : hexDigitVal r2 = some vr2) :
    parseColor ('&' :: 'H' :: [a1, a2, b1, b2, g1, g2, r1, r2]) =
        rgbaChars (JSNum.val ((16 * vr1 + vr2 : ℕ) : ℚ))
          (JSNum.val ((16 * vg1 + vg2 : ℕ) : ℚ)) (JSNum.val ((16 * vb1 + vb2 : ℕ) : ℚ))
          (jsToFixed3 (JSNum.val ((255 - ((16 * va1 + va2 : ℕ) : ℚ)) / 255))) ∧
      parseColor ('&' :: 'H' :: [b1, b2, g1, g2, r1, r2]) =
        rgbaChars (JSNum.val ((16 * vr1 + vr2 : ℕ) : ℚ))
          (JSNum.val ((16 * vg1 + vg2 : ℕ) : ℚ)) (JSNum.val ((16 * vb1 + vb2 : ℕ) : ℚ))
          (jsToFixed3 (JSNum.val 1)) ∧
      ∀ s : JStr, startsWithL "&H".toList s = false → parseColor s = whiteChars := by
  refine ⟨?_, ?_, ?_⟩
  · rw [parseColor, if_neg (by simp [startsWithL])]
    have hpad : padStartZeros 8 (('&' :: 'H' :: [a1, a2, b1, b2, g1, g2, r1, r2]).drop 2) =
        [a1, a2, b1, b2, g1, g2, r1, r2] := by
      simp [padStartZeros]
    rw [hpad]
    norm_num [jsParseIntHex_pair a1 a2 va1 va2 ha1 ha2,
      jsParseIntHex_pair b1 b2 vb1 vb2 hb1 hb2, jsParseIntHex_pair g1 g2 vg1 vg2 hg1 hg2,
      jsParseIntHex_pair r1 r2 vr1 vr2 hr1 hr2, JSNum.sub, JSNum.div]
  · rw [parseColor, if_neg (by simp [startsWithL])]
    have hpad : padStartZeros 8 (('&' :: 'H' :: [b1, b2, g1, g2, r1, r2]).drop 2) =
        ['0', '0', b1, b2, g1, g2, r1, r2] := by
      simp [padStartZeros, List.replicate]
    rw [hpad]
    have h00 : jsParseIntHex ['0', '0'] = JSNum.val ((16 * 0 + 0 : ℕ) : ℚ) :=
      jsParseIntHex_pair '0' '0' 0 0 (by decide) (by decide)
    norm_num [h00, jsParseIntHex_pair b1 b2 vb1 vb2 hb1 hb2,
      jsParseIntHex_pair g1 g2 vg1 vg2 hg1 hg2, jsParseIntHex_pair r1 r2 vr1 vr2 hr1 hr2,
      JSNum.sub, JSNum.div]
  · intro s hs
    rw [parseColor, if_pos (Or.inr hs)]

/-- C6 (witness): the amended theorem applied to the 8-hex-digit input
`&H000000FF` (opaque red in `AABBGGRR`). -/
theorem C6_witness :
    parseColor ('&' :: 'H' :: ['0', '0', '0', '0', '0', '0', 'F', 'F']) =
      rgbaChars (JSNum.val ((16 * 15 + 15 : ℕ) : ℚ)) (JSNum.val ((16 * 0 + 0 : ℕ) : ℚ))
        (JSNum.val ((16 * 0 + 0 : ℕ) : ℚ))
        (jsToFixed3 (JSNum.val ((255 - ((16 * 0 + 0 : ℕ) : ℚ)) / 255))) :=
  (C6_parseColor '0' '0' '0' '0' '0' '0' 'F' 'F' 0 0 0 0 0 0 15 15
    (by decide) (by decide) (by decide) (by decide) (by decide) (by decide)
    (by decide) (by decide)).1

end AssSubtitleParser
